import Mathlib

/-!
Verification of the lazy-sequence notebooks (Effective Python items 30-33):
percentage normalization with defensive iteration, generator composition via
sub-producer chaining, and cursor exhaustion behaviour.

Python iterators are embedded as explicit state passing: a `Cursor` is the
list of values it has not yet produced, and a `Src` is either a reusable
container or a single-pass iterator whose state is threaded through every
consumer.  Numeric values are rationals, so percentage arithmetic is exact.
Fallible Python code returns `Except PyError`.
-/

namespace LazySeq

/-- Errors raised by the notebook code.  `typeError` stands for the Python
`TypeError` (called the `NotReusableError` class by the spec) and
`zeroDivisionError` for the Python `ZeroDivisionError` (called the
`DivisionUndefinedError` class by the spec). -/
inductive PyError where
  | zeroDivisionError : PyError
  | typeError : String → PyError
deriving DecidableEq, Repr

/-- A single-pass cursor: the state of a Python iterator, given by the list
of values it has not yet yielded. -/
structure Cursor (α : Type) where
  remaining : List α
deriving DecidableEq, Repr

/-- `next()` on a cursor: the next value (or `none` for end-of-sequence,
the Python `StopIteration` signal) together with the new state of the cursor. -/
def Cursor.next {α : Type} : Cursor α → Option α × Cursor α
  | ⟨[]⟩ => (none, ⟨[]⟩)
  | ⟨x :: xs⟩ => (some x, ⟨xs⟩)

/-- Iterated `next()`: `c.nextN n` is the result of the `(n+1)`-th call to
`next()` starting from `c`, with the state threaded through. -/
def Cursor.nextN {α : Type} (c : Cursor α) : Nat → Option α × Cursor α
  | 0 => c.next
  | n + 1 => (c.next).2.nextN n

/-- Fully draining a cursor, as `list(it)` does: all remaining values, and
the exhausted cursor. -/
def Cursor.drainAll {α : Type} (c : Cursor α) : List α × Cursor α :=
  (c.remaining, ⟨[]⟩)

/-- A sequence source, as seen by a consuming function: either a reusable
container (a `list` or an object like `ReadValues`, which hands out a fresh
pass each time it is iterated) or a bare single-pass iterator carrying its
own cursor state. -/
inductive Src (α : Type) where
  | container : List α → Src α
  | singlePass : List α → Src α
deriving DecidableEq, Repr

/-- One full iteration over a source (what `sum(numbers)` or
`for value in numbers` performs): the values seen, and the state of the source
afterwards.  A container is untouched; a single-pass iterator is left
exhausted. -/
def Src.drain {α : Type} : Src α → List α × Src α
  | .container items => (items, .container items)
  | .singlePass rem => (rem, .singlePass [])

/-- `iter(x)` viewed as a source: on a container it returns a fresh
iterator over the items of the container (a new object), on an iterator it
returns that very iterator. -/
def Src.iterSource {α : Type} : Src α → Src α
  | .container items => .singlePass items
  | .singlePass rem => .singlePass rem

/-- The loop body of `normalize`: `percent = 100 * value / total` for each
value, collecting the results.  Python raises `ZeroDivisionError` at the
first division when `total` is zero, so the loop fails exactly when it runs
at least once with a zero total. -/
def normalizeLoop (total : ℚ) : List ℚ → Except PyError (List ℚ)
  | [] => .ok []
  | v :: vs =>
    if total = 0 then .error .zeroDivisionError
    else
      match normalizeLoop total vs with
      | .ok rest => .ok (100 * v / total :: rest)
      | .error e => .error e

/-- `normalize(numbers)`: `total = sum(numbers)` (first pass), then a second
pass computing `100 * value / total` for each value.  The state of the source is
threaded through both passes and returned. -/
def normalize (numbers : Src ℚ) : Except PyError (List ℚ) × Src ℚ :=
  let firstPass := numbers.drain
  let total := firstPass.1.sum
  let secondPass := firstPass.2.drain
  (normalizeLoop total secondPass.1, secondPass.2)

/-- `normalize_copy(numbers)`: `numbers_copy = list(numbers)` drains the
source once into an in-memory list, and both the total and the percentages
are computed from that copy. -/
def normalize_copy (numbers : Src ℚ) : Except PyError (List ℚ) × Src ℚ :=
  let copied := numbers.drain
  let numbers_copy := copied.1
  let total := numbers_copy.sum
  (normalizeLoop total numbers_copy, copied.2)

/-- `normalize_defensive(numbers)`: first checks `iter(numbers) is numbers`;
a bare iterator is rejected with a `TypeError` carrying the message
`Must supply a container`,
otherwise it behaves like `normalize`. -/
def normalize_defensive (numbers : Src ℚ) : Except PyError (List ℚ) × Src ℚ :=
  if numbers.iterSource = numbers then
    (.error (.typeError "Must supply a container"), numbers)
  else
    normalize numbers

/-- The two classifications a consuming function distinguishes. -/
inductive Classification where
  | Container : Classification
  | SinglePassIterator : Classification
deriving DecidableEq, Repr

/-- `classify(source)`: the detection rule of the notebook, `iter(numbers) is
numbers` — a source is a single-pass iterator exactly when asking it for a
fresh pass hands back the very same object. -/
def classify {α : Type} [DecidableEq α] (s : Src α) : Classification :=
  if s.iterSource = s then .SinglePassIterator else .Container

/-- A finite generator: the tree of values a Python generator body yields,
in order, ending in an implicit return. -/
inductive Gen (α : Type) where
  | done : Gen α
  | yield : α → Gen α → Gen α
deriving DecidableEq, Repr

/-- The full trace of values a generator yields before returning. -/
def Gen.toList {α : Type} : Gen α → List α
  | .done => []
  | .yield v k => v :: k.toList

/-- Sequencing of two generator-body fragments: run the first to
completion, then continue with the second. -/
def Gen.andThen {α : Type} : Gen α → Gen α → Gen α
  | .done, g => g
  | .yield v k, g => .yield v (k.andThen g)

/-- Manual per-element delegation, `for x in g: yield x`: the parent
re-yields the values of the child one at a time. -/
def forYield {α : Type} : Gen α → Gen α
  | .done => .done
  | .yield v k => .yield v (forYield k)

/-- `move(period, speed)`: yields `speed` once per step, `period` times. -/
def move (period : Nat) (speed : ℚ) : Gen ℚ :=
  match period with
  | 0 => .done
  | n + 1 => .yield speed (move n speed)

/-- `pause(delay)`: yields `0` once per step, `delay` times. -/
def pause (delay : Nat) : Gen ℚ :=
  match delay with
  | 0 => .done
  | n + 1 => .yield 0 (pause n)

/-- `animate()`: three explicit `for`/`yield` loops, one per child
generator, run in sequence. -/
def animate : Gen ℚ :=
  ((forYield (move 4 5)).andThen (forYield (pause 3))).andThen
    (forYield (move 2 3))

/-- `animate_composed()`: the same three children composed with
`yield from`, which splices the yields of each child in directly. -/
def animate_composed : Gen ℚ :=
  ((move 4 5).andThen (pause 3)).andThen (move 2 3)

/-- `range(start, start + count)` as a generator yielding
`start, start+1, ...`. -/
def rangeFrom (start : Nat) : Nat → Gen Nat
  | 0 => .done
  | count + 1 => .yield start (rangeFrom (start + 1) count)

/-- `child()`: `for i in range(50_000_000): yield i`. -/
def child : Gen Nat := rangeFrom 0 50000000

/-- `slow()`: manual delegation, `for i in child(): yield i`. -/
def slow : Gen Nat := forYield child

/-- `fast()`: `yield from child()`. -/
def fast : Gen Nat := child

/-- The cursor of the chained producer, as the design note of the spec
describes it:
the list of child cursors not yet exhausted, the head being the active
child (each child cursor given by its remaining output). -/
def chainNext {α : Type} : List (List α) → Option α × List (List α)
  | [] => (none, [])
  | [] :: rest => chainNext rest
  | (x :: xs) :: rest => (some x, xs :: rest)

/-- Iterated `next()` on the chained cursor. -/
def chainNextN {α : Type} (css : List (List α)) : Nat → Option α × List (List α)
  | 0 => chainNext css
  | n + 1 => chainNextN (chainNext css).2 n

/-- Everything the chained cursor yields before signalling
end-of-sequence: it reads the active child exhaustively, then moves to the
next child. -/
def chainRun {α : Type} : List (List α) → List α
  | [] => []
  | [] :: rest => chainRun rest
  | (x :: xs) :: rest => x :: chainRun (xs :: rest)
termination_by css => (css.length, (css.headD []).length)

/-- The chained producer over a list of child producers: its cursor starts
with one fresh cursor per child, in order. -/
def chainOf {α : Type} (producers : List (Gen α)) : List (List α) :=
  producers.map Gen.toList

/-- `index_words_iter(text)`: yields `0` when the text is non-empty, then
`index + 1` for every space character, as the trace of the generator. -/
def index_words_iter (text : List Char) : List Nat :=
  (if text = [] then [] else [0]) ++
    text.enum.filterMap fun p => if p.2 = ' ' then some (p.1 + 1) else none

/-- A container together with the family of cursors handed out so far by
its `__iter__` (as in `ReadValues`): each call to `produce` appends a fresh
cursor positioned at the first element; reads address one cursor by index. -/
structure ContainerSystem (α : Type) where
  items : List α
  cursors : List (Cursor α)
deriving DecidableEq, Repr

/-- `iter(container)` / `ReadValues.__iter__`: hand out a fresh cursor over
the items of the container, leaving every existing cursor alone. -/
def ContainerSystem.produce {α : Type} (s : ContainerSystem α) : ContainerSystem α :=
  ⟨s.items, s.cursors ++ [⟨s.items⟩]⟩

/-- `next()` on the `i`-th cursor handed out by the container: the value it
yields, and the system with only the state of that cursor advanced. -/
def ContainerSystem.read {α : Type} (s : ContainerSystem α) (i : Nat) :
    Option α × ContainerSystem α :=
  match s.cursors[i]? with
  | none => (none, s)
  | some c => ((c.next).1, ⟨s.items, s.cursors.set i (c.next).2⟩)

/-- `n` consecutive `next()` calls on the `i`-th cursor. -/
def ContainerSystem.readN {α : Type} (s : ContainerSystem α) (i : Nat) :
    Nat → ContainerSystem α
  | 0 => s
  | n + 1 => ((s.read i).2).readN i n

/-- With a nonzero total, the `normalize` loop succeeds and returns the
percentage of each value. -/
theorem normalizeLoop_ok (total : ℚ) (xs : List ℚ) (h : total ≠ 0) :
    normalizeLoop total xs = Except.ok (xs.map fun v => 100 * v / total) := by
  induction xs with
  | nil => rfl
  | cons x xs ih => simp [normalizeLoop, h, ih]

/-- The percentages of a list sum to `100 * sum / total`. -/
theorem sum_map_percent (total : ℚ) (xs : List ℚ) :
    (xs.map fun v => 100 * v / total).sum = 100 * xs.sum / total := by
  induction xs with
  | nil => simp
  | cons x xs ih =>
    simp only [List.map_cons, List.sum_cons, ih]
    ring

/-- Claim C1: on a non-empty container of non-negative values with nonzero
total, `normalize` returns the list of percentages `100 * value / total`,
of the same length as the input, and the returned values sum to exactly
100, hence to 100 within the 1e-9 tolerance. -/
theorem normalize_container_percentages (xs : List ℚ) (hne : xs ≠ [])
    (hnn : ∀ v ∈ xs, 0 ≤ v) (htot : xs.sum ≠ 0) :
    (normalize (Src.container xs)).1 =
      Except.ok (xs.map fun v => 100 * v / xs.sum) ∧
    (xs.map fun v => 100 * v / xs.sum).length = xs.length ∧
    (xs.map fun v => 100 * v / xs.sum).sum = 100 ∧
    |(xs.map fun v => 100 * v / xs.sum).sum - 100| ≤ 1 / 1000000000 := by
  have hsum : (xs.map fun v => 100 * v / xs.sum).sum = 100 := by
    rw [sum_map_percent, mul_div_assoc, div_self htot, mul_one]
  refine ⟨?_, by simp, hsum, by rw [hsum]; norm_num⟩
  simp [normalize, Src.drain, normalizeLoop_ok _ _ htot]

/-- Witness for claim C1 at the concrete input `[15, 35, 80]`, whose total
is 130: the result is `[150/13, 350/13, 800/13]`, approximately
`[11.538, 26.923, 61.538]`. -/
theorem normalize_container_percentages_witness :
    (normalize (Src.container ([15, 35, 80] : List ℚ))).1 =
      Except.ok (([15, 35, 80] : List ℚ).map
        fun v => 100 * v / ([15, 35, 80] : List ℚ).sum) ∧
    (normalize (Src.container ([15, 35, 80] : List ℚ))).1 =
      Except.ok [150 / 13, 350 / 13, 800 / 13] ∧
    |(150 : ℚ) / 13 - 11538 / 1000| < 1 / 1000 ∧
    |(350 : ℚ) / 13 - 26923 / 1000| < 1 / 1000 ∧
    |(800 : ℚ) / 13 - 61538 / 1000| < 1 / 1000 := by
  have hmain := normalize_container_percentages [15, 35, 80]
    (by simp) (by intro v hv; fin_cases hv <;> norm_num) (by norm_num)
  refine ⟨hmain.1, ?_, ?_, ?_, ?_⟩
  · rw [hmain.1]
    norm_num
  · rw [abs_sub_lt_iff]; constructor <;> norm_num
  · rw [abs_sub_lt_iff]; constructor <;> norm_num
  · rw [abs_sub_lt_iff]; constructor <;> norm_num

/-- Claim C4: under the strict policy, `normalize_defensive` rejects every
bare single-pass iterator with the `TypeError` that plays the role of the
`NotReusableError` of the spec, in particular an iterator over
`[15, 35, 80]`. -/
theorem normalize_defensive_rejects_iterator :
    (∀ l : List ℚ, (normalize_defensive (Src.singlePass l)).1 =
      Except.error (PyError.typeError "Must supply a container")) ∧
    (normalize_defensive (Src.singlePass ([15, 35, 80] : List ℚ))).1 =
      Except.error (PyError.typeError "Must supply a container") := by
  constructor
  · intro l
    simp [normalize_defensive, Src.iterSource]
  · rfl

/-- Claim C5, amended: on a non-empty container whose values total zero, in
particular `[0, 0, 0]`, `normalize` fails with `ZeroDivisionError` (the
`DivisionUndefinedError` class of the spec).  As stated over every source
the claim fails: an empty container and an exhaustion-prone bare iterator
both return a result instead (see the counterexample). -/
theorem normalize_zero_total_raises (xs : List ℚ) (hne : xs ≠ [])
    (h0 : xs.sum = 0) :
    (normalize (Src.container xs)).1 = Except.error PyError.zeroDivisionError := by
  cases xs with
  | nil => exact absurd rfl hne
  | cons x xs => simp [normalize, Src.drain, normalizeLoop, h0]

/-- Witness for the amended claim C5 at the container `[0, 0, 0]`. -/
theorem normalize_zero_total_raises_witness :
    (normalize (Src.container ([0, 0, 0] : List ℚ))).1 =
      Except.error PyError.zeroDivisionError :=
  normalize_zero_total_raises [0, 0, 0] (by simp) (by norm_num)

/-- Counterexample to claim C5 as stated over every source whose values
total zero: a bare single-pass iterator over `[0, 0, 0]` (total zero) and
the empty container (total zero) both make `normalize` return a list
rather than fail. -/
theorem normalize_zero_total_counterexample :
    (([0, 0, 0] : List ℚ).sum = 0 ∧
      (normalize (Src.singlePass ([0, 0, 0] : List ℚ))).1 = Except.ok []) ∧
    (([] : List ℚ).sum = 0 ∧
      (normalize (Src.container ([] : List ℚ))).1 = Except.ok []) := by
  refine ⟨⟨by norm_num, rfl⟩, ⟨rfl, rfl⟩⟩

/-- Claim C6: `classify` returns `Container` on a container and
`SinglePassIterator` on the iterator produced from that same container,
and a source classifies as a single-pass iterator exactly when requesting
a fresh pass returns the identical object. -/
theorem classify_container_vs_iterator (xs : List ℚ) :
    classify (Src.container xs) = Classification.Container ∧
    classify ((Src.container xs).iterSource) = Classification.SinglePassIterator ∧
    (∀ s : Src ℚ, classify s = Classification.SinglePassIterator ↔
      s.iterSource = s) := by
  refine ⟨?_, ?_, ?_⟩
  · simp [classify, Src.iterSource]
  · simp [classify, Src.iterSource]
  · intro s
    cases s <;> simp [classify, Src.iterSource]

/-- Claim C9: `normalize_copy` on a single-pass iterator buffers it and
computes exactly what `normalize` computes on the container holding the
same values; the iterator is drained in the process, and a container
passed to `normalize_copy` comes back unchanged. -/
theorem normalize_copy_buffers (xs : List ℚ) (htot : xs.sum ≠ 0) :
    (normalize_copy (Src.singlePass xs)).1 = (normalize (Src.container xs)).1 ∧
    (normalize_copy (Src.singlePass xs)).2 = Src.singlePass ([] : List ℚ) ∧
    (∀ ys : List ℚ, (normalize_copy (Src.container ys)).2 = Src.container ys) := by
  exact ⟨rfl, rfl, fun ys => rfl⟩

/-- Witness for claim C9 at the input `[15, 35, 80]`. -/
theorem normalize_copy_buffers_witness :
    (normalize_copy (Src.singlePass ([15, 35, 80] : List ℚ))).1 =
      (normalize (Src.container ([15, 35, 80] : List ℚ))).1 :=
  (normalize_copy_buffers [15, 35, 80] (by norm_num)).1

/-- Claim C10: the undefended `normalize`, handed a bare single-pass
iterator over a non-empty sequence with nonzero total, silently returns
the empty list, leaving the iterator exhausted: the summing pass consumes
every value and the percentage pass sees none. -/
theorem normalize_singlepass_returns_empty (xs : List ℚ) (hne : xs ≠ [])
    (htot : xs.sum ≠ 0) :
    (normalize (Src.singlePass xs)).1 = Except.ok [] ∧
    (normalize (Src.singlePass xs)).2 = Src.singlePass ([] : List ℚ) := by
  exact ⟨rfl, rfl⟩

/-- Witness for claim C10 at the input `[15, 35, 80]`. -/
theorem normalize_singlepass_returns_empty_witness :
    (normalize (Src.singlePass ([15, 35, 80] : List ℚ))).1 = Except.ok [] :=
  (normalize_singlepass_returns_empty [15, 35, 80] (by simp) (by norm_num)).1

/-- The trace of sequenced generator fragments is the concatenation of the
traces. -/
theorem Gen.toList_andThen {α : Type} (a b : Gen α) :
    (a.andThen b).toList = a.toList ++ b.toList := by
  induction a with
  | done => rfl
  | yield v k ih => simp [Gen.andThen, Gen.toList, ih]

/-- A for/yield loop over a child yields exactly the trace of the child. -/
theorem toList_forYield {α : Type} (g : Gen α) :
    (forYield g).toList = g.toList := by
  induction g with
  | done => rfl
  | yield v k ih => simp [forYield, Gen.toList, ih]

/-- The chained cursor runs to the concatenation of the remaining outputs
of its children, in order. -/
theorem chainRun_flatten {α : Type} : ∀ css : List (List α),
    chainRun css = css.flatten := by
  intro css
  induction css with
  | nil => simp [chainRun]
  | cons head rest ih =>
    induction head with
    | nil => simpa [chainRun] using ih
    | cons x xs ihx => simpa [chainRun] using ihx

/-- The chained cursor signals end-of-sequence exactly when every
remaining child is exhausted. -/
theorem chainNext_fst_none_iff {α : Type} : ∀ css : List (List α),
    ((chainNext css).1 = none ↔ css.flatten = []) := by
  intro css
  induction css with
  | nil => simp [chainNext]
  | cons head rest ih =>
    cases head with
    | nil => simpa [chainNext] using ih
    | cons x xs => simp [chainNext]

/-- Claim C2: the chained producer yields exactly the concatenation of the
outputs of its children in the given order, reading each child
exhaustively before the next, and signals end-of-sequence only once every
child is exhausted; concretely, the chain over `move(4,5)`, `pause(3)`,
`move(2,3)` — the cursor of `animate_composed` — yields `5` four times,
then `0` three times, then `3` twice. -/
theorem chain_yields_concatenation :
    (∀ css : List (List ℚ), chainRun css = css.flatten) ∧
    chainRun (chainOf [move 4 5, pause 3, move 2 3]) = animate_composed.toList ∧
    animate_composed.toList = [5, 5, 5, 5, 0, 0, 0, 3, 3] ∧
    (∀ css : List (List ℚ), ((chainNext css).1 = none ↔ css.flatten = [])) := by
  refine ⟨chainRun_flatten, ?_, rfl, chainNext_fst_none_iff⟩
  rw [chainRun_flatten]
  simp [chainOf, animate_composed, Gen.toList_andThen]

/-- Claim C8: sub-producer chaining is semantically equivalent to manual
per-element delegation: `animate` and `animate_composed` yield the same
trace, `slow` and `fast` yield the same trace, and in general a for/yield
loop over any child generator yields exactly the trace of that child. -/
theorem yield_from_equivalent_to_manual :
    animate.toList = animate_composed.toList ∧
    slow.toList = fast.toList ∧
    (∀ g : Gen ℚ, (forYield g).toList = g.toList) := by
  refine ⟨?_, ?_, fun g => toList_forYield g⟩
  · simp [animate, animate_composed, Gen.toList_andThen, toList_forYield]
  · simp [slow, fast, toList_forYield]

/-- A cursor that just signalled end-of-sequence is in the exhausted
state. -/
theorem Cursor.next_none_state {α : Type} (c : Cursor α)
    (h : (c.next).1 = none) : (c.next).2 = Cursor.mk [] := by
  obtain ⟨rem⟩ := c
  cases rem with
  | nil => rfl
  | cons x xs => simp [Cursor.next] at h

/-- An exhausted cursor answers `none` to every further call. -/
theorem Cursor.nextN_nil {α : Type} :
    ∀ n : Nat, ((Cursor.mk ([] : List α)).nextN n).1 = none := by
  intro n
  induction n with
  | zero => rfl
  | succ n ih => simpa [Cursor.nextN, Cursor.next] using ih

/-- A chained cursor that just signalled end-of-sequence has dropped every
child. -/
theorem chainNext_none_state {α : Type} : ∀ css : List (List α),
    (chainNext css).1 = none → (chainNext css).2 = [] := by
  intro css
  induction css with
  | nil => intro _; rfl
  | cons head rest ih =>
    cases head with
    | nil => simpa [chainNext] using ih
    | cons x xs => simp [chainNext]

/-- An exhausted chained cursor answers `none` to every further call. -/
theorem chainNextN_nil {α : Type} :
    ∀ n : Nat, (chainNextN ([] : List (List α)) n).1 = none := by
  intro n
  induction n with
  | zero => rfl
  | succ n ih => simpa [chainNextN, chainNext] using ih

/-- Claim C3: once a cursor has returned the end-of-sequence sentinel,
every subsequent `next()` call on it returns the sentinel again, never an
error and never a value — both for plain cursors and for chained
cursors. -/
theorem cursor_exhaustion_idempotent {α : Type} (c : Cursor α)
    (h : (c.next).1 = none) :
    (∀ n : Nat, (((c.next).2).nextN n).1 = none) ∧
    (∀ css : List (List α), (chainNext css).1 = none →
      ∀ n : Nat, (chainNextN (chainNext css).2 n).1 = none) := by
  constructor
  · intro n
    rw [Cursor.next_none_state c h]
    exact Cursor.nextN_nil n
  · intro css hcss n
    rw [chainNext_none_state css hcss]
    exact chainNextN_nil n

/-- Witness for claim C3: the cursor over the word-index generator output,
once drained (the second `list(it)` of the notebook demo), keeps answering
`none`. -/
theorem cursor_exhaustion_idempotent_witness :
    ((((Cursor.mk (index_words_iter
        ("Four score and seven".toList))).drainAll.2).next).2.nextN 3).1 = none :=
  (cursor_exhaustion_idempotent
    (Cursor.mk (index_words_iter ("Four score and seven".toList))).drainAll.2 rfl).1 3

/-- A single read on one cursor of a container system leaves every other
cursor and the items unchanged. -/
theorem ContainerSystem.read_frame {α : Type} (s : ContainerSystem α)
    (i j : Nat) (h : j ≠ i) :
    ((s.read i).2).cursors[j]? = s.cursors[j]? ∧
    ((s.read i).2).items = s.items := by
  unfold ContainerSystem.read
  cases hg : s.cursors[i]? with
  | none => exact ⟨rfl, rfl⟩
  | some c =>
    exact ⟨List.getElem?_set_ne (Ne.symm h), rfl⟩

/-- Any number of reads on one cursor of a container system leaves every
other cursor and the items unchanged. -/
theorem ContainerSystem.readN_frame {α : Type} (s : ContainerSystem α)
    (i j : Nat) (n : Nat) (h : j ≠ i) :
    (s.readN i n).cursors[j]? = s.cursors[j]? ∧
    (s.readN i n).items = s.items := by
  induction n generalizing s with
  | zero => exact ⟨rfl, rfl⟩
  | succ n ih =>
    have h1 := ContainerSystem.read_frame s i j h
    have h2 := ih ((s.read i).2)
    exact ⟨h2.1.trans h1.1, h2.2.trans h1.2⟩

/-- Claim C7: the cursors a container hands out are independent: any number
of reads on one cursor changes neither any other cursor nor the items;
concretely, after cursor A over `[15, 35, 80]` reads one value (15), a
fresh cursor B from the same container still reads 15 first. -/
theorem container_cursors_independent (s : ContainerSystem ℚ)
    (i j n : Nat) (h : j ≠ i) :
    ((s.readN i n).cursors[j]? = s.cursors[j]? ∧
      (s.readN i n).items = s.items) ∧
    ((ContainerSystem.mk ([15, 35, 80] : List ℚ) []).produce.read 0).1 =
      some 15 ∧
    ((((((ContainerSystem.mk ([15, 35, 80] : List ℚ) []).produce.read
      0).2).produce).read 1).1 = some 15) := by
  exact ⟨ContainerSystem.readN_frame s i j n h, rfl, rfl⟩

/-- Witness for claim C7: two fresh cursors over `[15, 35, 80]`; two reads
on cursor 0 leave cursor 1 still positioned at the first element. -/
theorem container_cursors_independent_witness :
    ((ContainerSystem.mk ([15, 35, 80] : List ℚ)
      [Cursor.mk [15, 35, 80], Cursor.mk [15, 35, 80]]).readN 0 2).cursors[1]? =
      some (Cursor.mk [15, 35, 80]) :=
  (((container_cursors_independent
    (ContainerSystem.mk ([15, 35, 80] : List ℚ)
      [Cursor.mk [15, 35, 80], Cursor.mk [15, 35, 80]]) 0 1 2
    (by decide)).1).1).trans rfl

end LazySeq
